import Mathlib

/-!
Shallow embedding of the circuit-breaker state machine of this repository.

`src/app.ts` defines `CircuitBreaker<T>` with a single mutating entry point
`fire`.  We model one `fire` call as a pure function on the breaker record:
the caller supplies the current clock value (`Date.now()`) and the outcome
the wrapped action would produce if it were invoked.  The function returns
the value/error surfaced to the caller, the updated breaker record, and a
flag telling whether the wrapped action was invoked.

`src/circuit-breaker.ts` defines the alternate draft
`CircuitBreakerPattern.act`, modelled separately below.

Times and durations are in milliseconds, modelled as `Nat` (JavaScript
timestamps are non-negative integers here; no arithmetic overflows).
-/

/-- The three gating modes of the breaker (`"CLOSED" | "OPEN" | "HALF_OPEN"`). -/
inductive BState where
  | CLOSED
  | OPEN
  | HALF_OPEN
deriving DecidableEq, Repr

/-- Outcome the wrapped `action` produces when invoked: it resolves with a
value of type `α` or rejects with an error value of type `ε`. -/
inductive Outcome (ε α : Type) where
  | success (v : α)
  | failure (e : ε)
deriving DecidableEq, Repr

/-- What a `fire` call surfaces to its caller: the action's result, the
breaker's own `Error("Circuit is OPEN. Request blocked!")`, or the re-raised
action error. -/
inductive FireResult (ε α : Type) where
  | ok (v : α)
  | circuitOpen
  | opError (e : ε)
deriving DecidableEq, Repr

/-- The mutable fields of `CircuitBreaker` together with its configuration
(`failureThreshold`, `successThreshold`, `timeout`), from `src/app.ts`. -/
structure CB where
  failureThreshold : Nat
  successThreshold : Nat
  timeout : Nat
  state : BState
  failureCount : Nat
  successCount : Nat
  nextAttempt : Nat
deriving DecidableEq, Repr

/-- The option bag accepted by the constructor (`CircuitBreakerOptions`). -/
structure CircuitBreakerOptions where
  failureThreshold : Option Nat
  successThreshold : Option Nat
  timeout : Option Nat

/-- The constructor of `CircuitBreaker`: defaults `3 / 2 / 5000` via `??`,
initial state `CLOSED`, both counters `0`, `nextAttempt = Date.now()`. -/
def mkCircuitBreaker (opts : CircuitBreakerOptions) (now : Nat) : CB :=
  { failureThreshold := opts.failureThreshold.getD 3
    successThreshold := opts.successThreshold.getD 2
    timeout := opts.timeout.getD 5000
    state := BState.CLOSED
    failureCount := 0
    successCount := 0
    nextAttempt := now }

/-- The `try { ... } catch (err) { ... }` body of `fire`, entered once the
OPEN gate has been passed: the action is invoked (third component `true`).
On success: `successCount++`, and if the state is HALF_OPEN with
`successCount > successThreshold` the breaker closes and resets both
counters.  On failure: `failureCount++`, and if
`failureCount >= failureThreshold` the breaker opens, sets
`nextAttempt = now + timeout` and resets `successCount`; the error is
re-raised unchanged. -/
def tryAction {ε α : Type} (cb : CB) (now : Nat) (out : Outcome ε α) :
    FireResult ε α × CB × Bool :=
  match out with
  | Outcome.success v =>
      let cb2 := { cb with successCount := cb.successCount + 1 }
      if cb2.state = BState.HALF_OPEN ∧ cb2.successCount > cb2.successThreshold then
        (FireResult.ok v,
         { cb2 with state := BState.CLOSED, failureCount := 0, successCount := 0 },
         true)
      else
        (FireResult.ok v, cb2, true)
  | Outcome.failure e =>
      let cb2 := { cb with failureCount := cb.failureCount + 1 }
      if cb2.failureThreshold ≤ cb2.failureCount then
        (FireResult.opError e,
         { cb2 with state := BState.OPEN, nextAttempt := now + cb2.timeout,
                    successCount := 0 },
         true)
      else
        (FireResult.opError e, cb2, true)

/-- `CircuitBreaker.fire` from `src/app.ts`.  If the state is OPEN:
when `Date.now() > nextAttempt` the state moves to HALF_OPEN and the call
proceeds to the action; otherwise the call throws the circuit-open error
without invoking the action (third component `false`). -/
def fire {ε α : Type} (cb : CB) (now : Nat) (out : Outcome ε α) :
    FireResult ε α × CB × Bool :=
  if cb.state = BState.OPEN then
    if cb.nextAttempt < now then
      tryAction { cb with state := BState.HALF_OPEN } now out
    else
      (FireResult.circuitOpen, cb, false)
  else
    tryAction cb now out

/-- The breaker state after a sequence of `fire` calls, each given as a pair
of the call time and the wrapped action's outcome. -/
def runCB {ε α : Type} (cb : CB) (evs : List (Nat × Outcome ε α)) : CB :=
  evs.foldl (fun s ev => (fire s ev.1 ev.2).2.1) cb

/-- A trace of consecutive failing calls, given by the (time, error) pair of
each call. -/
def failEvents {ε α : Type} (l : List (Nat × ε)) : List (Nat × Outcome ε α) :=
  l.map (fun p => (p.1, Outcome.failure p.2))

/-- A trace of consecutive successful calls, given by the (time, value) pair
of each call. -/
def succEvents {ε α : Type} (l : List (Nat × α)) : List (Nat × Outcome ε α) :=
  l.map (fun p => (p.1, Outcome.success p.2))

/-- A breaker record is reachable when some constructor call followed by some
sequence of `fire` calls produces it.  The evolution of the record does not
depend on the action's payload values, so traces over `Unit` payloads suffice. -/
def Reachable (cb : CB) : Prop :=
  ∃ (opts : CircuitBreakerOptions) (t0 : Nat) (evs : List (Nat × Outcome Unit Unit)),
    runCB (mkCircuitBreaker opts t0) evs = cb

/-!
The alternate draft `CircuitBreakerPattern` from `src/circuit-breaker.ts`.
Its `act` method returns a rejected promise when the state is OPEN (the
`Date.now() > nextAttempt` recovery check is commented out, so there is no
transition to HALF_OPEN).  On success it increments `successCount` and
returns the result.  When the action throws, the `catch` block increments
`failureCount`, trips to OPEN when the threshold is reached, and — the
conditional block being left unclosed, with no re-throw — falls off the end,
so `act` resolves with `undefined` (the error is swallowed).
-/

/-- What an `act` call of the draft variant surfaces: the action's result,
the rejection `"Circuit is OPEN. Request blocked!"`, or `undefined` after a
swallowed action error. -/
inductive ActResult (α : Type) where
  | ok (v : α)
  | rejected
  | undef
deriving DecidableEq, Repr

/-- The fields of `CircuitBreakerPattern` (identical shape to `CB`; kept as a
separate record because the two classes are separate in the source). -/
structure CBP where
  failureThreshold : Nat
  successThreshold : Nat
  timeout : Nat
  state : BState
  failureCount : Nat
  successCount : Nat
  nextAttempt : Nat
deriving DecidableEq, Repr

/-- The constructor of `CircuitBreakerPattern`: same defaults and initial
values as `CircuitBreaker`. -/
def mkCircuitBreakerPattern (opts : CircuitBreakerOptions) (now : Nat) : CBP :=
  { failureThreshold := opts.failureThreshold.getD 3
    successThreshold := opts.successThreshold.getD 2
    timeout := opts.timeout.getD 5000
    state := BState.CLOSED
    failureCount := 0
    successCount := 0
    nextAttempt := now }

/-- `CircuitBreakerPattern.act` from `src/circuit-breaker.ts`.  OPEN state:
reject without invoking the action and without touching any field.
Otherwise invoke the action; on success `successCount++` and return the
result; on a thrown error `failureCount++`, trip to OPEN with
`nextAttempt = now + timeout` when `failureCount >= failureThreshold`, and
resolve with `undefined`. -/
def act {ε α : Type} (cb : CBP) (now : Nat) (out : Outcome ε α) :
    ActResult α × CBP × Bool :=
  if cb.state = BState.OPEN then
    (ActResult.rejected, cb, false)
  else
    match out with
    | Outcome.success v =>
        (ActResult.ok v, { cb with successCount := cb.successCount + 1 }, true)
    | Outcome.failure _ =>
        let cb2 := { cb with failureCount := cb.failureCount + 1 }
        if cb2.failureThreshold ≤ cb2.failureCount then
          (ActResult.undef,
           { cb2 with state := BState.OPEN, nextAttempt := now + cb2.timeout },
           true)
        else
          (ActResult.undef, cb2, true)

/-- The draft breaker's record after a sequence of `act` calls. -/
def runCBP {ε α : Type} (cb : CBP) (evs : List (Nat × Outcome ε α)) : CBP :=
  evs.foldl (fun s ev => (act s ev.1 ev.2).2.1) cb

/-! ### Helper lemmas about single `fire` calls -/

/-- A `fire` call in a non-OPEN state goes straight to the action. -/
theorem fire_not_open {ε α : Type} (cb : CB) (now : Nat) (out : Outcome ε α)
    (hs : cb.state ≠ BState.OPEN) :
    fire cb now out = tryAction cb now out := by
  simp [fire, hs]

/-- A `fire` call in OPEN state strictly after `nextAttempt` proceeds as the
action body on the record moved to HALF_OPEN (counters untouched). -/
theorem fire_open_probe {ε α : Type} (cb : CB) (now : Nat) (out : Outcome ε α)
    (hs : cb.state = BState.OPEN) (ht : cb.nextAttempt < now) :
    fire cb now out = tryAction { cb with state := BState.HALF_OPEN } now out := by
  simp [fire, hs, ht]

/-- A `fire` call in OPEN state at or before `nextAttempt` is rejected with
the circuit-open error, changes nothing and does not invoke the action. -/
theorem fire_open_blocked {ε α : Type} (cb : CB) (now : Nat) (out : Outcome ε α)
    (hs : cb.state = BState.OPEN) (ht : now ≤ cb.nextAttempt) :
    fire cb now out = (FireResult.circuitOpen, cb, false) := by
  simp [fire, hs, Nat.not_lt.mpr ht]

/-- Successful action, no close: `successCount` increments, nothing else
changes. -/
theorem tryAction_success {ε α : Type} (cb : CB) (now : Nat) (v : α)
    (h : ¬(cb.state = BState.HALF_OPEN ∧ cb.successThreshold < cb.successCount + 1)) :
    tryAction cb now (Outcome.success v : Outcome ε α) =
      (FireResult.ok v, { cb with successCount := cb.successCount + 1 }, true) := by
  simp only [tryAction, gt_iff_lt]
  rw [if_neg]
  exact h

/-- Successful action that completes the HALF_OPEN streak: the breaker
closes and resets both counters. -/
theorem tryAction_success_close {ε α : Type} (cb : CB) (now : Nat) (v : α)
    (h1 : cb.state = BState.HALF_OPEN) (h2 : cb.successThreshold < cb.successCount + 1) :
    tryAction cb now (Outcome.success v : Outcome ε α) =
      (FireResult.ok v,
       { cb with state := BState.CLOSED, failureCount := 0, successCount := 0 },
       true) := by
  simp only [tryAction, gt_iff_lt]
  rw [if_pos ⟨h1, h2⟩]

/-- Failing action below threshold: `failureCount` increments, nothing else
changes, the error is re-raised. -/
theorem tryAction_fail_below {ε α : Type} (cb : CB) (now : Nat) (e : ε)
    (h : cb.failureCount + 1 < cb.failureThreshold) :
    tryAction cb now (Outcome.failure e : Outcome ε α) =
      (FireResult.opError e, { cb with failureCount := cb.failureCount + 1 }, true) := by
  simp only [tryAction]
  rw [if_neg (Nat.not_le.mpr h)]

/-- Failing action reaching the threshold: the breaker trips to OPEN, sets
`nextAttempt = now + timeout`, resets `successCount`, re-raises the error. -/
theorem tryAction_fail_trip {ε α : Type} (cb : CB) (now : Nat) (e : ε)
    (h : cb.failureThreshold ≤ cb.failureCount + 1) :
    tryAction cb now (Outcome.failure e : Outcome ε α) =
      (FireResult.opError e,
       { cb with state := BState.OPEN, failureCount := cb.failureCount + 1,
                 nextAttempt := now + cb.timeout, successCount := 0 },
       true) := by
  simp only [tryAction]
  rw [if_pos h]

/-! ### Helper lemmas about runs of `fire` calls -/

theorem runCB_nil {ε α : Type} (cb : CB) :
    runCB cb ([] : List (Nat × Outcome ε α)) = cb := rfl

theorem runCB_cons {ε α : Type} (cb : CB) (ev : Nat × Outcome ε α)
    (evs : List (Nat × Outcome ε α)) :
    runCB cb (ev :: evs) = runCB (fire cb ev.1 ev.2).2.1 evs := rfl

theorem runCB_append {ε α : Type} (cb : CB) (l1 l2 : List (Nat × Outcome ε α)) :
    runCB cb (l1 ++ l2) = runCB (runCB cb l1) l2 := by
  simp [runCB, List.foldl_append]

/-- While CLOSED and strictly below threshold, consecutive failing calls only
accumulate `failureCount`; state, `successCount` and `nextAttempt` are
untouched. -/
theorem runCB_failEvents_closed {ε α : Type} (l : List (Nat × ε)) (cb : CB)
    (hs : cb.state = BState.CLOSED)
    (hlt : cb.failureCount + l.length < cb.failureThreshold) :
    runCB cb (failEvents l : List (Nat × Outcome ε α)) =
      { cb with failureCount := cb.failureCount + l.length } := by
  induction l generalizing cb with
  | nil => simp [failEvents, runCB]
  | cons p t ih =>
      have h1 : cb.failureCount + 1 < cb.failureThreshold := by
        simp only [List.length_cons] at hlt; omega
    
      have hstep : (fire cb p.1 (Outcome.failure p.2 : Outcome ε α)).2.1 =
          { cb with failureCount := cb.failureCount + 1 } := by
        rw [fire_not_open cb p.1 _ (by rw [hs]; intro h; cases h),
            tryAction_fail_below cb p.1 p.2 h1]
      have := ih { cb with failureCount := cb.failureCount + 1 } (by simpa using hs)
        (by simp only [List.length_cons] at hlt; simpa using (by omega : cb.failureCount + 1 + t.length < cb.failureThreshold))
      simp only [failEvents, List.map_cons] at this ⊢
      rw [runCB_cons, hstep, this]
      simp only [List.length_cons]
      congr 1
      omega

/-- While HALF_OPEN and at or below the success threshold, consecutive
successful calls only accumulate `successCount`. -/
theorem runCB_succEvents_halfopen {ε α : Type} (l : List (Nat × α)) (cb : CB)
    (hs : cb.state = BState.HALF_OPEN)
    (hle : cb.successCount + l.length ≤ cb.successThreshold) :
    runCB cb (succEvents l : List (Nat × Outcome ε α)) =
      { cb with successCount := cb.successCount + l.length } := by
  induction l generalizing cb with
  | nil => simp [succEvents, runCB]
  | cons p t ih =>
      have h1 : ¬(cb.state = BState.HALF_OPEN ∧ cb.successThreshold < cb.successCount + 1) := by
        simp only [List.length_cons] at hle
        rintro ⟨-, h⟩; omega
      have hstep : (fire cb p.1 (Outcome.success p.2 : Outcome ε α)).2.1 =
          { cb with successCount := cb.successCount + 1 } := by
        rw [fire_not_open cb p.1 _ (by rw [hs]; intro h; cases h),
            tryAction_success cb p.1 p.2 h1]
      have := ih { cb with successCount := cb.successCount + 1 } (by simpa using hs)
        (by simp only [List.length_cons] at hle; simpa using (by omega : cb.successCount + 1 + t.length ≤ cb.successThreshold))
      simp only [succEvents, List.map_cons] at this ⊢
      rw [runCB_cons, hstep, this]
      simp only [List.length_cons]
      congr 1
      omega

/-! ### The reachability invariant

Once the breaker has left CLOSED, `failureCount` has reached the threshold
and is never reset until the breaker closes again; and an OPEN breaker has
`successCount = 0` (the trip resets it and blocked calls change nothing).
-/

/-- Invariant of every reachable `CircuitBreaker` record. -/
def CBInv (cb : CB) : Prop :=
  ((cb.state = BState.OPEN ∨ cb.state = BState.HALF_OPEN) →
      cb.failureThreshold ≤ cb.failureCount) ∧
  (cb.state = BState.OPEN → cb.successCount = 0)

/-- The initial record satisfies the invariant (its state is CLOSED). -/
theorem cbInv_mkCircuitBreaker (opts : CircuitBreakerOptions) (now : Nat) :
    CBInv (mkCircuitBreaker opts now) := by
  constructor <;> simp [mkCircuitBreaker]

/-- A single `fire` call preserves the invariant. -/
theorem cbInv_fire {ε α : Type} (cb : CB) (now : Nat) (out : Outcome ε α)
    (h : CBInv cb) : CBInv (fire cb now out).2.1 := by
  obtain ⟨h1, h2⟩ := h
  by_cases hopen : cb.state = BState.OPEN
  · by_cases ht : cb.nextAttempt < now
    · -- probe admitted: body runs on the HALF_OPEN record
      rw [fire_open_probe cb now out hopen ht]
      have hcnt : cb.failureThreshold ≤ cb.failureCount := h1 (Or.inl hopen)
      cases out with
      | success v =>
          by_cases hclose : cb.successThreshold < cb.successCount + 1
          · rw [tryAction_success_close _ now v rfl (by simpa using hclose)]
            constructor <;> simp
          · rw [tryAction_success _ now v (by simpa using Nat.not_lt.mp hclose)]
            constructor <;> simp [hcnt]
      | failure e =>
          rw [tryAction_fail_trip _ now e (by simp; omega)]
          constructor <;> simp
          omega
    · -- blocked: nothing changes
      rw [fire_open_blocked cb now out hopen (Nat.not_lt.mp ht)]
      exact ⟨h1, h2⟩
  · rw [fire_not_open cb now out hopen]
    cases out with
    | success v =>
        by_cases hclose : cb.state = BState.HALF_OPEN ∧ cb.successThreshold < cb.successCount + 1
        · rw [tryAction_success_close _ now v hclose.1 hclose.2]
          constructor <;> simp
        · rw [tryAction_success _ now v hclose]
          constructor <;> simp_all
    | failure e =>
        by_cases htrip : cb.failureThreshold ≤ cb.failureCount + 1
        · rw [tryAction_fail_trip _ now e htrip]
          constructor <;> simp [htrip]
        · rw [tryAction_fail_below _ now e (Nat.not_le.mp htrip)]
          constructor
          · intro hst
            simp only at hst
            rcases hst with hst | hst
            · have := h1 (Or.inl hst); omega
            · have := h1 (Or.inr hst); omega
          · intro hst; simp only at hst; exact absurd hst hopen

/-- The invariant holds after any run of `fire` calls from an invariant
state. -/
theorem cbInv_runCB {ε α : Type} (evs : List (Nat × Outcome ε α)) (cb : CB)
    (h : CBInv cb) : CBInv (runCB cb evs) := by
  induction evs generalizing cb with
  | nil => exact h
  | cons ev t ih => exact ih _ (cbInv_fire cb ev.1 ev.2 h)

/-- Every reachable breaker record satisfies the invariant. -/
theorem reachable_cbInv (cb : CB) (h : Reachable cb) : CBInv cb := by
  obtain ⟨opts, t0, evs, rfl⟩ := h
  exact cbInv_runCB evs _ (cbInv_mkCircuitBreaker opts t0)

/-- Reachability is preserved by a `fire` step (used to build concrete
reachable records in witnesses). -/
theorem reachable_fire (cb : CB) (now : Nat) (out : Outcome Unit Unit)
    (h : Reachable cb) : Reachable (fire cb now out).2.1 := by
  obtain ⟨opts, t0, evs, rfl⟩ := h
  exact ⟨opts, t0, evs ++ [(now, out)], by rw [runCB_append]; rfl⟩

/-- The action body always invokes the action (third component `true`). -/
theorem tryAction_invoked {ε α : Type} (cb : CB) (now : Nat) (out : Outcome ε α) :
    (tryAction cb now out).2.2 = true := by
  cases out with
  | success v => simp only [tryAction]; split <;> rfl
  | failure e => simp only [tryAction]; split <;> rfl

/-- The action body re-raises a failing action's error as the call result,
whether or not the breaker trips. -/
theorem tryAction_fail_result {ε α : Type} (cb : CB) (now : Nat) (e : ε) :
    (tryAction cb now (Outcome.failure e : Outcome ε α)).1 = FireResult.opError e := by
  simp only [tryAction]; split <;> rfl

/-! ### Claim theorems -/

/-- Concrete record used in witnesses: an OPEN breaker with
`nextAttempt = 100`, as left by a trip of a threshold-3 breaker. -/
def cbOpenW : CB :=
  { failureThreshold := 3, successThreshold := 2, timeout := 1000,
    state := BState.OPEN, failureCount := 3, successCount := 0, nextAttempt := 100 }

/-- C6: while OPEN and strictly before `nextAttempt`, a `fire` call fails
with the circuit-open error, invokes nothing (`false`), and changes no field
(the returned record is the input record). -/
theorem claim_C6 {ε α : Type} (cb : CB) (now : Nat) (out : Outcome ε α)
    (hs : cb.state = BState.OPEN) (ht : now < cb.nextAttempt) :
    fire cb now out = (FireResult.circuitOpen, cb, false) :=
  fire_open_blocked cb now out hs (Nat.le_of_lt ht)

/-- Witness for C6 at a concrete OPEN record and time 50 < 100. -/
theorem claim_C6_witness :
    fire cbOpenW 50 (Outcome.failure (7 : Nat) : Outcome Nat Nat) =
      (FireResult.circuitOpen, cbOpenW, false) :=
  claim_C6 cbOpenW 50 (Outcome.failure 7) (by decide) (by decide)

/-- C7: whenever the wrapped action is reached and fails (state not OPEN, or
OPEN with the cooldown strictly elapsed), `fire` surfaces exactly the error
value the action produced, and the action was indeed invoked. -/
theorem claim_C7 {ε α : Type} (cb : CB) (now : Nat) (e : ε)
    (h : cb.state = BState.OPEN → cb.nextAttempt < now) :
    (fire cb now (Outcome.failure e : Outcome ε α)).1 = FireResult.opError e ∧
    (fire cb now (Outcome.failure e : Outcome ε α)).2.2 = true := by
  by_cases hopen : cb.state = BState.OPEN
  · rw [fire_open_probe cb now _ hopen (h hopen)]
    exact ⟨tryAction_fail_result _ now e, tryAction_invoked _ now _⟩
  · rw [fire_not_open cb now _ hopen]
    exact ⟨tryAction_fail_result _ now e, tryAction_invoked _ now _⟩

/-- Witness for C7: a CLOSED breaker surfaces the action's error 42
unchanged. -/
theorem claim_C7_witness :
    (fire (mkCircuitBreaker ⟨some 3, some 2, some 1000⟩ 0) 5
        (Outcome.failure (42 : Nat) : Outcome Nat Nat)).1 = FireResult.opError 42 ∧
    (fire (mkCircuitBreaker ⟨some 3, some 2, some 1000⟩ 0) 5
        (Outcome.failure (42 : Nat) : Outcome Nat Nat)).2.2 = true :=
  claim_C7 (mkCircuitBreaker ⟨some 3, some 2, some 1000⟩ 0) 5 42 (by decide)

/-- Concrete record: a default-configured breaker after one failing call;
CLOSED with `failureCount = 1`. -/
def cbOneFail : CB :=
  runCB (mkCircuitBreaker ⟨some 3, some 2, some 5000⟩ 0)
    (failEvents [(1, 0)] : List (Nat × Outcome Nat Nat))

/-- Counterexample to C2 as stated: a CLOSED breaker with
`0 < failureCount < failureThreshold` whose `failureCount` is still 1, not
0, after a successful `fire` call. -/
theorem claim_C2_counterexample :
    cbOneFail.state = BState.CLOSED ∧
    0 < cbOneFail.failureCount ∧
    cbOneFail.failureCount < cbOneFail.failureThreshold ∧
    (fire cbOneFail 2 (Outcome.success (0 : Nat) : Outcome Nat Nat)).2.1.failureCount = 1 := by
  decide

/-- C2 (amended): while CLOSED, a successful `fire` call leaves
`failureCount` (and every other field except `successCount`) unchanged —
failures accumulate cumulatively; the state remains CLOSED and only
`successCount` increments. -/
theorem claim_C2 {ε α : Type} (cb : CB) (now : Nat) (v : α)
    (hs : cb.state = BState.CLOSED) :
    fire cb now (Outcome.success v : Outcome ε α) =
      (FireResult.ok v, { cb with successCount := cb.successCount + 1 }, true) := by
  rw [fire_not_open cb now _ (by rw [hs]; intro h; cases h)]
  exact tryAction_success cb now v (by rw [hs]; rintro ⟨h, -⟩; cases h)

/-- Witness for C2 (amended) at the concrete record `cbOneFail`. -/
theorem claim_C2_witness :
    fire cbOneFail 2 (Outcome.success (0 : Nat) : Outcome Nat Nat) =
      (FireResult.ok 0, { cbOneFail with successCount := cbOneFail.successCount + 1 }, true) :=
  claim_C2 cbOneFail 2 0 (by decide)

/-- Concrete record: a threshold-1 breaker after one failing call at time 0;
OPEN with `failureCount = 1` and `nextAttempt = 100`. -/
def cbTripped : CB :=
  runCB (mkCircuitBreaker ⟨some 1, some 2, some 100⟩ 0)
    (failEvents [(0, 0)] : List (Nat × Outcome Nat Nat))

/-- Counterexample to C3 as stated: at exactly `now = nextAttempt` (100) the
call is rejected with the circuit-open error and nothing is forwarded — the
code tests `Date.now() > nextAttempt`, strictly. -/
theorem claim_C3_counterexample :
    cbTripped.state = BState.OPEN ∧
    cbTripped.nextAttempt = 100 ∧
    fire cbTripped 100 (Outcome.success (5 : Nat) : Outcome Nat Nat) =
      (FireResult.circuitOpen, cbTripped, false) := by
  decide

/-- C3 (amended): while OPEN, a `fire` call strictly after `nextAttempt`
proceeds as the action body on the record moved to HALF_OPEN with both
counters untouched, and the action is invoked; a call at or before
`nextAttempt` (in particular at exactly `nextAttempt`) is rejected
unchanged. -/
theorem claim_C3 {ε α : Type} (cb : CB) (now : Nat) (out : Outcome ε α)
    (hs : cb.state = BState.OPEN) :
    (cb.nextAttempt < now →
      fire cb now out = tryAction { cb with state := BState.HALF_OPEN } now out ∧
      (fire cb now out).2.2 = true) ∧
    (now ≤ cb.nextAttempt →
      fire cb now out = (FireResult.circuitOpen, cb, false)) := by
  constructor
  · intro ht
    refine ⟨fire_open_probe cb now out hs ht, ?_⟩
    rw [fire_open_probe cb now out hs ht]
    exact tryAction_invoked _ now out
  · exact fun ht => fire_open_blocked cb now out hs ht

/-- Witness for C3 (amended) at the concrete record `cbTripped`: time 101 is
admitted as a probe, time 100 (= `nextAttempt`) is rejected. -/
theorem claim_C3_witness :
    (fire cbTripped 101 (Outcome.success (5 : Nat) : Outcome Nat Nat) =
        tryAction { cbTripped with state := BState.HALF_OPEN } 101 (Outcome.success 5) ∧
      (fire cbTripped 101 (Outcome.success (5 : Nat) : Outcome Nat Nat)).2.2 = true) ∧
    fire cbTripped 100 (Outcome.failure (9 : Nat) : Outcome Nat Nat) =
      (FireResult.circuitOpen, cbTripped, false) :=
  ⟨(claim_C3 cbTripped 101 (Outcome.success 5) (by decide)).1 (by decide),
   (claim_C3 cbTripped 100 (Outcome.failure 9) (by decide)).2 (by decide)⟩

/-- C1: from a CLOSED breaker with a fresh failure count, the
`failureThreshold`-th consecutive failing call (the last of
`l ++ [(tN, eN)]`) leaves the breaker OPEN with
`nextAttempt = tN + timeout`, and any next call at or before that instant
fails with the circuit-open error without invoking the action and without
changing the record. -/
theorem claim_C1 {ε α : Type} (cb : CB) (l : List (Nat × ε)) (tN : Nat) (eN : ε)
    (hs : cb.state = BState.CLOSED) (hc : cb.failureCount = 0)
    (hlen : l.length + 1 = cb.failureThreshold) :
    (runCB cb (failEvents (l ++ [(tN, eN)]) : List (Nat × Outcome ε α))).state = BState.OPEN ∧
    (runCB cb (failEvents (l ++ [(tN, eN)]) : List (Nat × Outcome ε α))).nextAttempt =
      tN + cb.timeout ∧
    ∀ (t2 : Nat) (out : Outcome ε α),
      t2 ≤ (runCB cb (failEvents (l ++ [(tN, eN)]) : List (Nat × Outcome ε α))).nextAttempt →
      fire (runCB cb (failEvents (l ++ [(tN, eN)]) : List (Nat × Outcome ε α))) t2 out =
        (FireResult.circuitOpen,
         runCB cb (failEvents (l ++ [(tN, eN)]) : List (Nat × Outcome ε α)), false) := by
  have hsplit : (failEvents (l ++ [(tN, eN)]) : List (Nat × Outcome ε α)) =
      failEvents l ++ [(tN, Outcome.failure eN)] := by
    simp [failEvents]
  have hbelow : runCB cb (failEvents l : List (Nat × Outcome ε α)) =
      { cb with failureCount := cb.failureCount + l.length } :=
    runCB_failEvents_closed l cb hs (by omega)
  have hmid : runCB cb (failEvents l : List (Nat × Outcome ε α)) =
      { cb with failureCount := l.length } := by
    rw [hbelow, hc]; simp
  have hlast : (runCB cb (failEvents (l ++ [(tN, eN)]) : List (Nat × Outcome ε α))) =
      { cb with state := BState.OPEN, failureCount := l.length + 1,
                nextAttempt := tN + cb.timeout, successCount := 0 } := by
    rw [hsplit, runCB_append, hmid, runCB_cons]
    rw [fire_not_open _ tN _ (by simp [hs])]
    rw [tryAction_fail_trip _ tN eN (by simp; omega)]
    rfl
  refine ⟨by rw [hlast], by rw [hlast], ?_⟩
  intro t2 out ht2
  rw [hlast] at ht2 ⊢
  exact fire_open_blocked _ t2 out rfl ht2

/-- Witness for C1: the default threshold-3 breaker, failures at times
1, 2, 3, then a blocked call at time 4. -/
theorem claim_C1_witness :
    (runCB (mkCircuitBreaker ⟨some 3, some 2, some 1000⟩ 0)
        (failEvents ([(1, 9), (2, 9)] ++ [(3, 9)]) : List (Nat × Outcome Nat Nat))).state =
      BState.OPEN ∧
    (runCB (mkCircuitBreaker ⟨some 3, some 2, some 1000⟩ 0)
        (failEvents ([(1, 9), (2, 9)] ++ [(3, 9)]) : List (Nat × Outcome Nat Nat))).nextAttempt =
      3 + (mkCircuitBreaker ⟨some 3, some 2, some 1000⟩ 0).timeout ∧
    fire (runCB (mkCircuitBreaker ⟨some 3, some 2, some 1000⟩ 0)
        (failEvents ([(1, 9), (2, 9)] ++ [(3, 9)]) : List (Nat × Outcome Nat Nat))) 4
        (Outcome.failure (9 : Nat) : Outcome Nat Nat) =
      (FireResult.circuitOpen,
       runCB (mkCircuitBreaker ⟨some 3, some 2, some 1000⟩ 0)
        (failEvents ([(1, 9), (2, 9)] ++ [(3, 9)]) : List (Nat × Outcome Nat Nat)), false) := by
  obtain ⟨h1, h2, h3⟩ := claim_C1 (mkCircuitBreaker ⟨some 3, some 2, some 1000⟩ 0)
    [(1, 9), (2, 9)] 3 9 (by decide) (by decide) (by decide)
  exact ⟨h1, h2, h3 4 (Outcome.failure 9) (by rw [h2]; decide)⟩

/-- Concrete record: a threshold-1 breaker tripped at time 0, probed
successfully at time 11; HALF_OPEN with `failureCount = 1`,
`successCount = 1`. -/
def cbHalfOpenW : CB :=
  runCB (mkCircuitBreaker ⟨some 1, some 2, some 10⟩ 0)
    ([(0, Outcome.failure ()), (11, Outcome.success ())] : List (Nat × Outcome Unit Unit))

/-- C4: for every reachable breaker in HALF_OPEN, a single failing probe
call re-raises the error and moves the breaker back to OPEN with
`failureCount` incremented, `nextAttempt = now + timeout`, and
`successCount` reset to 0 — for every configured `failureThreshold`
(reachability guarantees `failureCount` already reached it). -/
theorem claim_C4 {ε α : Type} (cb : CB) (now : Nat) (e : ε)
    (hr : Reachable cb) (hs : cb.state = BState.HALF_OPEN) :
    fire cb now (Outcome.failure e : Outcome ε α) =
      (FireResult.opError e,
       { cb with state := BState.OPEN, failureCount := cb.failureCount + 1,
                 nextAttempt := now + cb.timeout, successCount := 0 },
       true) := by
  have hcnt : cb.failureThreshold ≤ cb.failureCount :=
    (reachable_cbInv cb hr).1 (Or.inr hs)
  rw [fire_not_open cb now _ (by rw [hs]; intro h; cases h)]
  exact tryAction_fail_trip cb now e (by omega)

/-- Witness for C4 at the concrete reachable record `cbHalfOpenW`
(`failureThreshold = 1`). -/
theorem claim_C4_witness :
    fire cbHalfOpenW 20 (Outcome.failure (7 : Nat) : Outcome Nat Nat) =
      (FireResult.opError 7,
       { cbHalfOpenW with state := BState.OPEN,
                          failureCount := cbHalfOpenW.failureCount + 1,
                          nextAttempt := 20 + cbHalfOpenW.timeout, successCount := 0 },
       true) :=
  claim_C4 cbHalfOpenW 20 7
    ⟨⟨some 1, some 2, some 10⟩, 0, [(0, Outcome.failure ()), (11, Outcome.success ())], rfl⟩
    (by decide)

/-- C5: from a breaker that has just entered HALF_OPEN (`successCount = 0`,
as every OPEN breaker has `successCount = 0`), exactly
`successThreshold + 1` consecutive successful calls close the breaker and
reset both counters; `successThreshold` or fewer successes leave it
HALF_OPEN, only accumulating `successCount`. -/
theorem claim_C5 {ε α : Type} (cb : CB) (l : List (Nat × α))
    (hs : cb.state = BState.HALF_OPEN) (hc : cb.successCount = 0) :
    (l.length = cb.successThreshold + 1 →
      runCB cb (succEvents l : List (Nat × Outcome ε α)) =
        { cb with state := BState.CLOSED, failureCount := 0, successCount := 0 }) ∧
    (l.length ≤ cb.successThreshold →
      (runCB cb (succEvents l : List (Nat × Outcome ε α))).state = BState.HALF_OPEN ∧
      (runCB cb (succEvents l : List (Nat × Outcome ε α))).successCount = l.length) := by
  constructor
  · intro hlen
    obtain h | ⟨l0, b, rfl⟩ := l.eq_nil_or_concat
    · subst h; simp at hlen
    · have hlen0 : l0.length = cb.successThreshold := by
        simp [List.concat_eq_append] at hlen; omega
      have hmid : runCB cb (succEvents l0 : List (Nat × Outcome ε α)) =
          { cb with successCount := cb.successCount + l0.length } :=
        runCB_succEvents_halfopen l0 cb hs (by omega)
      have hsplit : (succEvents (l0.concat b) : List (Nat × Outcome ε α)) =
          succEvents l0 ++ [(b.1, Outcome.success b.2)] := by
        simp [succEvents, List.concat_eq_append]
      rw [hsplit, runCB_append, hmid, runCB_cons]
      rw [fire_not_open _ b.1 _ (by simp [hs])]
      rw [tryAction_success_close _ b.1 b.2 (by simp [hs]) (by simp [hc, hlen0])]
      simp [runCB]
  · intro hlen
    rw [runCB_succEvents_halfopen l cb hs (by omega)]
    exact ⟨by simp [hs], by simp [hc]⟩

/-- Concrete record used in the C5 witness: a freshly probing HALF_OPEN
breaker with `successThreshold = 2` and `successCount = 0`. -/
def cbProbingW : CB :=
  { failureThreshold := 3, successThreshold := 2, timeout := 1000,
    state := BState.HALF_OPEN, failureCount := 3, successCount := 0, nextAttempt := 1003 }

/-- Witness for C5: three successes (= `successThreshold + 1`) close
`cbProbingW` and reset both counters; two successes leave it HALF_OPEN with
`successCount = 2`. -/
theorem claim_C5_witness :
    runCB cbProbingW (succEvents [(1, 5), (2, 5), (3, 5)] : List (Nat × Outcome Nat Nat)) =
      { cbProbingW with state := BState.CLOSED, failureCount := 0, successCount := 0 } ∧
    ((runCB cbProbingW (succEvents [(1, 5), (2, 5)] : List (Nat × Outcome Nat Nat))).state =
        BState.HALF_OPEN ∧
      (runCB cbProbingW (succEvents [(1, 5), (2, 5)] : List (Nat × Outcome Nat Nat))).successCount = 2) :=
  ⟨(claim_C5 cbProbingW [(1, 5), (2, 5), (3, 5)] (by decide) (by decide)).1 (by decide),
   (claim_C5 cbProbingW [(1, 5), (2, 5)] (by decide) (by decide)).2 (by decide)⟩

/-- Counterexample to C8 as stated: the transition from `cbTripped` (OPEN)
into HALF_OPEN leaves `failureCount = 1`; the counter not relevant to
HALF_OPEN's success-based exit condition is not reset. -/
theorem claim_C8_counterexample :
    cbTripped.state = BState.OPEN ∧
    (fire cbTripped 101 (Outcome.success (5 : Nat) : Outcome Nat Nat)).2.1.state =
      BState.HALF_OPEN ∧
    (fire cbTripped 101 (Outcome.success (5 : Nat) : Outcome Nat Nat)).2.1.failureCount = 1 := by
  decide

/-- C8 (amended): a `fire` call that enters CLOSED from another state resets
both counters (in particular `successCount`, the counter not relevant to
CLOSED's exit condition); a `fire` call that ends in HALF_OPEN never resets
`failureCount` — it is preserved or incremented. -/
theorem claim_C8 {ε α : Type} (cb : CB) (now : Nat) (out : Outcome ε α) :
    ((fire cb now out).2.1.state = BState.CLOSED → cb.state ≠ BState.CLOSED →
      (fire cb now out).2.1.failureCount = 0 ∧ (fire cb now out).2.1.successCount = 0) ∧
    ((fire cb now out).2.1.state = BState.HALF_OPEN →
      cb.failureCount ≤ (fire cb now out).2.1.failureCount) := by
  by_cases hopen : cb.state = BState.OPEN
  · by_cases ht : cb.nextAttempt < now
    · rw [fire_open_probe _ _ _ hopen ht]
      cases out with
      | success v =>
          by_cases hclose : cb.successThreshold < cb.successCount + 1
          · rw [tryAction_success_close _ now v rfl (by simpa using hclose)]
            exact ⟨fun _ _ => ⟨rfl, rfl⟩, fun h => absurd h (by simp)⟩
          · rw [tryAction_success _ now v (by simpa using Nat.not_lt.mp hclose)]
            exact ⟨fun h => absurd h (by simp), fun _ => Nat.le_refl _⟩
      | failure e =>
          by_cases htrip : cb.failureThreshold ≤ cb.failureCount + 1
          · rw [tryAction_fail_trip _ now e (by simpa using htrip)]
            exact ⟨fun h => absurd h (by simp), fun h => absurd h (by simp)⟩
          · rw [tryAction_fail_below _ now e (by simpa using Nat.not_le.mp htrip)]
            exact ⟨fun h => absurd h (by simp), fun _ => Nat.le_succ _⟩
    · rw [fire_open_blocked _ _ _ hopen (Nat.not_lt.mp ht)]
      exact ⟨fun h hne => absurd h hne, fun _ => Nat.le_refl _⟩
  · rw [fire_not_open _ _ _ hopen]
    cases out with
    | success v =>
        by_cases hclose : cb.state = BState.HALF_OPEN ∧ cb.successThreshold < cb.successCount + 1
        · rw [tryAction_success_close _ now v hclose.1 hclose.2]
          exact ⟨fun _ _ => ⟨rfl, rfl⟩, fun h => absurd h (by simp)⟩
        · rw [tryAction_success _ now v hclose]
          exact ⟨fun h hne => absurd h hne, fun _ => Nat.le_refl _⟩
    | failure e =>
        by_cases htrip : cb.failureThreshold ≤ cb.failureCount + 1
        · rw [tryAction_fail_trip _ now e htrip]
          exact ⟨fun h => absurd h (by simp), fun h => absurd h (by simp)⟩
        · rw [tryAction_fail_below _ now e (Nat.not_le.mp htrip)]
          exact ⟨fun h hne => absurd h hne, fun _ => Nat.le_succ _⟩

/-- Witness for C8 (amended): closing from HALF_OPEN resets both counters;
a probe call ending in HALF_OPEN keeps `failureCount` at least as large. -/
theorem claim_C8_witness :
    ((fire { cbProbingW with successCount := 2 } 10
        (Outcome.success (1 : Nat) : Outcome Nat Nat)).2.1.failureCount = 0 ∧
      (fire { cbProbingW with successCount := 2 } 10
        (Outcome.success (1 : Nat) : Outcome Nat Nat)).2.1.successCount = 0) ∧
    cbTripped.failureCount ≤
      (fire cbTripped 101 (Outcome.success (8 : Nat) : Outcome Nat Nat)).2.1.failureCount :=
  ⟨(claim_C8 { cbProbingW with successCount := 2 } 10 (Outcome.success 1)).1
      (by decide) (by decide),
   (claim_C8 cbTripped 101 (Outcome.success 8)).2 (by decide)⟩

/-- C9: in the draft variant, OPEN is absorbing — after any further sequence
of `act` calls at any times the record is unchanged (so never HALF_OPEN),
and every such call is rejected without invoking the action. -/
theorem claim_C9 {ε α : Type} (cb : CBP) (hs : cb.state = BState.OPEN) :
    ∀ (evs : List (Nat × Outcome ε α)),
      runCBP cb evs = cb ∧
      ∀ (now : Nat) (out : Outcome ε α),
        act (runCBP cb evs) now out = (ActResult.rejected, cb, false) := by
  have hact : ∀ (now : Nat) (out : Outcome ε α),
      act cb now out = (ActResult.rejected, cb, false) := by
    intro now out; simp [act, hs]
  intro evs
  have hrun : runCBP cb evs = cb := by
    induction evs with
    | nil => rfl
    | cons ev t ih =>
        show runCBP (act cb ev.1 ev.2).2.1 t = cb
        rw [hact ev.1 ev.2]
        exact ih
  exact ⟨hrun, fun now out => by rw [hrun]; exact hact now out⟩

/-- Concrete record: the draft breaker with `failureThreshold = 1` after one
failing call; OPEN with `failureCount = 1`, `nextAttempt = 10`. -/
def cbPatW : CBP :=
  runCBP (mkCircuitBreakerPattern ⟨some 1, some 2, some 10⟩ 0)
    ([(0, Outcome.failure ())] : List (Nat × Outcome Unit Unit))

/-- Witness for C9: two later calls (one success, one failure, long after
`nextAttempt`) leave `cbPatW` unchanged and a third call is still
rejected. -/
theorem claim_C9_witness :
    runCBP cbPatW
        ([(100, Outcome.success 1), (200, Outcome.failure 2)] : List (Nat × Outcome Nat Nat)) =
      cbPatW ∧
    act (runCBP cbPatW
        ([(100, Outcome.success 1), (200, Outcome.failure 2)] : List (Nat × Outcome Nat Nat)))
        300 (Outcome.success (3 : Nat) : Outcome Nat Nat) =
      (ActResult.rejected, cbPatW, false) := by
  obtain ⟨h1, h2⟩ := claim_C9 cbPatW (by decide)
    ([(100, Outcome.success 1), (200, Outcome.failure 2)] : List (Nat × Outcome Nat Nat))
  exact ⟨h1, h2 300 (Outcome.success 3)⟩

/-- Decrease of `failureCount` in one `fire` call happens only in the
transition into CLOSED, which resets it to 0. -/
theorem fire_failureCount_lt {ε α : Type} (cb : CB) (now : Nat) (out : Outcome ε α)
    (h : (fire cb now out).2.1.failureCount < cb.failureCount) :
    (fire cb now out).2.1.state = BState.CLOSED ∧
    (fire cb now out).2.1.failureCount = 0 := by
  by_cases hopen : cb.state = BState.OPEN
  · by_cases ht : cb.nextAttempt < now
    · rw [fire_open_probe _ _ _ hopen ht] at h ⊢
      cases out with
      | success v =>
          by_cases hclose : cb.successThreshold < cb.successCount + 1
          · rw [tryAction_success_close _ now v rfl (by simpa using hclose)]
            exact ⟨rfl, rfl⟩
          · rw [tryAction_success _ now v (by simpa using Nat.not_lt.mp hclose)] at h
            simp at h
      | failure e =>
          by_cases htrip : cb.failureThreshold ≤ cb.failureCount + 1
          · rw [tryAction_fail_trip _ now e (by simpa using htrip)] at h
            simp at h
          · rw [tryAction_fail_below _ now e (by simpa using Nat.not_le.mp htrip)] at h
            simp at h
    · rw [fire_open_blocked _ _ _ hopen (Nat.not_lt.mp ht)] at h
      simp at h
  · rw [fire_not_open _ _ _ hopen] at h ⊢
    cases out with
    | success v =>
        by_cases hclose : cb.state = BState.HALF_OPEN ∧ cb.successThreshold < cb.successCount + 1
        · rw [tryAction_success_close _ now v hclose.1 hclose.2]
          exact ⟨rfl, rfl⟩
        · rw [tryAction_success _ now v hclose] at h
          simp at h
    | failure e =>
        by_cases htrip : cb.failureThreshold ≤ cb.failureCount + 1
        · rw [tryAction_fail_trip _ now e htrip] at h
          simp at h
        · rw [tryAction_fail_below _ now e (Nat.not_le.mp htrip)] at h
          simp at h

/-- C10: every reachable breaker that is OPEN or HALF_OPEN has
`failureCount ≥ failureThreshold`; and `failureCount` decreases in a `fire`
call only by the reset to 0 of the transition into CLOSED.  This is what
lets a single HALF_OPEN probe failure re-trip the threshold test. -/
theorem claim_C10 (cb : CB) (hr : Reachable cb) :
    ((cb.state = BState.OPEN ∨ cb.state = BState.HALF_OPEN) →
      cb.failureThreshold ≤ cb.failureCount) ∧
    ∀ (now : Nat) (out : Outcome Unit Unit),
      (fire cb now out).2.1.failureCount < cb.failureCount →
        (fire cb now out).2.1.state = BState.CLOSED ∧
        (fire cb now out).2.1.failureCount = 0 :=
  ⟨(reachable_cbInv cb hr).1, fun now out h => fire_failureCount_lt cb now out h⟩

/-- Concrete record: a breaker with `failureThreshold = 1` and
`successThreshold = 0` tripped at time 0; OPEN, `failureCount = 1`,
`nextAttempt = 10`. -/
def cbZeroThresh : CB :=
  runCB (mkCircuitBreaker ⟨some 1, some 0, some 10⟩ 0)
    ([(0, Outcome.failure ())] : List (Nat × Outcome Unit Unit))

/-- Witness for C10: the tripped record has `failureCount ≥ threshold`, and
the successful probe at time 11 closes it, resetting `failureCount` to 0 —
the only way the counter decreases. -/
theorem claim_C10_witness :
    cbZeroThresh.failureThreshold ≤ cbZeroThresh.failureCount ∧
    ((fire cbZeroThresh 11 (Outcome.success () : Outcome Unit Unit)).2.1.state =
        BState.CLOSED ∧
      (fire cbZeroThresh 11 (Outcome.success () : Outcome Unit Unit)).2.1.failureCount = 0) := by
  obtain ⟨h1, h2⟩ := claim_C10 cbZeroThresh
    ⟨⟨some 1, some 0, some 10⟩, 0, [(0, Outcome.failure ())], rfl⟩
  exact ⟨h1 (Or.inl (by decide)), h2 11 (Outcome.success ()) (by decide)⟩
